import Mathlib

set_option maxRecDepth 8192

/-!
Verification development for the `battleye-rcon` server (BattlEye RCon v2,
server side).  Bytes are modelled as natural numbers below 256, byte strings
as `List Nat`, and 32-bit machine arithmetic as `Nat` with explicit
reductions modulo `2 ^ 32`.  Fallible parsers return `Except`, and the
stateful engine is modelled by explicit state passing: each handler maps an
engine state and an incoming datagram to the successor state plus the list
of externally visible outputs (socket writes and command-callback calls).
-/

namespace Rcon

/-! ### Checksum primitive (checksum.go)

Go's `crc32.ChecksumIEEE` is the reflected-polynomial CRC32: register
initialised to `0xffffffff`, each input byte xor-ed into the low bits
followed by eight shift/conditional-xor rounds, and a final complement.
The table-driven Go implementation computes exactly this function. -/

def crc32Poly : Nat := 0xedb88320

def crc32Round (c : Nat) : Nat :=
  if c &&& 1 == 1 then (c >>> 1) ^^^ crc32Poly else c >>> 1

def crc32Rounds : Nat → Nat → Nat
  | 0, c => c
  | n + 1, c => crc32Rounds n (crc32Round c)

def crc32UpdateByte (c b : Nat) : Nat := crc32Rounds 8 (c ^^^ b)

/-- Model of `NewChecksum` (checksum.go): `crc32.ChecksumIEEE(data)`. -/
def NewChecksum (data : List Nat) : Nat :=
  (data.foldl crc32UpdateByte 0xffffffff) ^^^ 0xffffffff

/-- Model of `VerifyChecksum` (checksum.go): `NewChecksum(data) == checksum`. -/
def VerifyChecksum (data : List Nat) (checksum : Nat) : Bool :=
  NewChecksum data == checksum


/-! ### Packet codec (packet.go) -/

def LoginPacketType : Nat := 0x00
def CommandPacketType : Nat := 0x01
def ServerMessagePacketType : Nat := 0x02

def LoginSuccessful : Nat := 0x01
def LoginFailed : Nat := 0x00

def packetHeaderMagic : List Nat := [66, 69]  -- ASCII 'B', 'E'
def packetHeaderEnd : Nat := 0xff

/-- Model of the `PacketHeader` struct of packet.go: 2-byte magic, a 32-bit
checksum, and the constant trailer byte (field `End` in Go). -/
structure PacketHeader where
  magic : List Nat
  checksum : Nat
  endByte : Nat
deriving DecidableEq

/-- Model of `NewPacketHeader` (packet.go). -/
def NewPacketHeader (checksum : Nat) : PacketHeader :=
  ⟨packetHeaderMagic, checksum, packetHeaderEnd⟩

/-- Little-endian byte encoding of a 32-bit value,
`binary.LittleEndian.PutUint32`. -/
def u32le (x : Nat) : List Nat :=
  [x % 256, (x >>> 8) % 256, (x >>> 16) % 256, (x >>> 24) % 256]

/-- Little-endian decoding of four bytes into a 32-bit value, the effect of
`binary.Read(input, binary.LittleEndian, &ph.Checksum)`. -/
def u32leDecode (b0 b1 b2 b3 : Nat) : Nat :=
  b0 + b1 * 256 + b2 * 65536 + b3 * 16777216

/-- Model of `(*PacketHeader).Encode` (packet.go): magic, then the checksum
little-endian, then the trailer byte. -/
def PacketHeader.encode (ph : PacketHeader) : List Nat :=
  ph.magic ++ u32le ph.checksum ++ [ph.endByte]

/-- Distinct causes with which the sequential readers of packet.go fail. -/
inductive ParseError where
  | magicMissing        -- could not read packet header magic
  | magicMismatch       -- packet header magic mismatch
  | checksumFieldShort  -- could not read packet header Checksum
  | trailerMissing      -- could not read packet header end
  | trailerMismatch     -- packet header end mismatch (never actually produced, see below)
  | packetTypeMissing   -- could not decode packet type
  | sequenceMissing     -- could not parse sequence number
  | commandReadFailed   -- could not parse command
deriving DecidableEq

/-- Model of `ParseHeader` (packet.go).  The reader consumes seven bytes:
two magic bytes, four checksum bytes (little-endian) and the trailer byte.
The source's trailer validation is
`return ph, errors.Wrap(err, "packet header end mismatch")` where `err` is
nil at that point, and `errors.Wrap(nil, msg)` of github.com/pkg/errors is
nil, so a datagram whose trailer byte differs from 0xff is still returned
as a successfully parsed header; `ParseError.trailerMismatch` is therefore
never produced by this function. -/
def ParseHeader (input : List Nat) : Except ParseError (PacketHeader × List Nat) :=
  match input with
  | b0 :: b1 :: rest =>
    if [b0, b1] = packetHeaderMagic then
      match rest with
      | c0 :: c1 :: c2 :: c3 :: rest2 =>
        match rest2 with
        | e :: rest3 => .ok (⟨[b0, b1], u32leDecode c0 c1 c2 c3, e⟩, rest3)
        | [] => .error .trailerMissing
      | _ => .error .checksumFieldShort
    else .error .magicMismatch
  | _ => .error .magicMissing

/-- Model of `ParsePacketType` (packet.go): one byte. -/
def ParsePacketType (input : List Nat) : Except ParseError (Nat × List Nat) :=
  match input with
  | t :: rest => .ok (t, rest)
  | [] => .error .packetTypeMissing

/-- Model of `ParseSequenceNumber` (packet.go): one byte. -/
def ParseSequenceNumber (input : List Nat) : Except ParseError (Nat × List Nat) :=
  match input with
  | s :: rest => .ok (s, rest)
  | [] => .error .sequenceMissing

/-- Size of the buffer handed to a single `Read` in `ParseCommand`. -/
def commandReadLimit : Nat := 4098

/-- Model of `ParseCommand` (packet.go): a single `input.Read(buf)` with a
4098-byte buffer.  On an exhausted `bytes.Reader` the `Read` returns
`(0, io.EOF)` and the function fails; otherwise it returns up to 4098 of
the remaining bytes, leaving any excess unread. -/
def ParseCommand (input : List Nat) : Except ParseError (List Nat × List Nat) :=
  match input with
  | [] => .error .commandReadFailed
  | _ => .ok (input.take commandReadLimit, input.drop commandReadLimit)

/-- Model of `MakeLoginResponsePacket` (packet.go): payload is the login
packet type byte followed by the response byte; the checksum covers the
trailer byte 0xff prepended to the payload. -/
def MakeLoginResponsePacket (responseType : Nat) : List Nat :=
  let payload := [LoginPacketType, responseType]
  (NewPacketHeader (NewChecksum (packetHeaderEnd :: payload))).encode ++ payload

/-- Model of `MakeCommandResponsePacket` (packet.go): payload is the command
packet type byte, the sequence byte, then the data. -/
def MakeCommandResponsePacket (seq : Nat) (data : List Nat) : List Nat :=
  let payload := CommandPacketType :: seq :: data
  (NewPacketHeader (NewChecksum (packetHeaderEnd :: payload))).encode ++ payload

/-- Model of `MakeServerMessagePacket` (packet.go). -/
def MakeServerMessagePacket (seq : Nat) (data : List Nat) : List Nat :=
  let payload := ServerMessagePacketType :: seq :: data
  (NewPacketHeader (NewChecksum (packetHeaderEnd :: payload))).encode ++ payload


/-! ### Server engine (the main server source file)

A Go `net.Addr` is rendered as the string `"ip:port"`; the engine keys the
session table by the full address string and the counter/block tables by
the address with the port stripped (`addressWithoutPort`).  We model an
address as an (ip, port) pair of naturals, with the ip component playing
the role of the stripped string.

The `go-cache` tables (`clients`, `blockedIp`, `wrongPasswordCounter`,
`serverMessageAcknowledges`) are maps whose entries carry an absolute
expiry deadline; a `Get` (and `Items`) observes an entry only while
`now ≤ deadline`, mirroring go-cache's expiration check.  Durations are in
seconds and the state carries the current time `now`; no time passes
inside the handling of a single datagram. -/

structure Addr where
  ip : Nat
  port : Nat
deriving DecidableEq

/-- Model of `addressWithoutPort`: the address string up to the colon. -/
def addressWithoutPort (a : Addr) : Nat := a.ip

/-- Session TTL: the `keepAliveCheck` constant, 50 seconds. -/
def keepAliveCheck : Nat := 50

/-- Brute-force counter TTL and block duration: `blockIpInterval`, 30 minutes. -/
def blockIpInterval : Nat := 1800

/-- Maximum login tries before an ip is blocked: `loginTries`. -/
def loginTries : Nat := 5

/-- Ack-entry TTL: the literal `15*time.Second` used for acknowledges. -/
def ackTTL : Nat := 15

/-- Liveness of a cache entry holding an absolute deadline: go-cache treats
an entry as present while the current time has not passed its deadline. -/
def entryLive : Option Nat → Nat → Bool
  | none, _ => false
  | some d, now => decide (now ≤ d)

/-- Engine state: the mutable fields of the `RCON` struct (tables reduced
to the data the protocol logic reads), plus the current time. -/
structure EngineState where
  password : List Nat
  ipBanList : List Nat
  hasCommandHandler : Bool
  /-- session table `clients`: address ↦ expiry deadline -/
  clients : Addr → Option Nat
  /-- `blockedIp`: source ip ↦ expiry deadline -/
  blockedIp : Nat → Option Nat
  /-- `wrongPasswordCounter`: source ip ↦ (count, expiry deadline) -/
  wrongPasswordCounter : Nat → Option (Nat × Nat)
  /-- `serverMessageAcknowledges`: (address, seq) ↦ expiry deadline -/
  serverMessageAcknowledges : Addr × Nat → Option Nat
  /-- `seqNumber`: the 32-bit atomic sequence register -/
  seqNumber : Nat
  /-- current time in seconds -/
  now : Nat

/-- Externally visible effects of handling a datagram: socket writes
(`SendResponse`) and invocations of the user command callback. -/
inductive Output where
  | send (dest : Addr) (data : List Nat)
  | callback (seq : Nat) (command : List Nat) (src : Addr)
deriving DecidableEq

/-- Model of `addressInBanList`: a linear scan of the static ban list. -/
def addressInBanList (banList : List Nat) (a : Nat) : Bool :=
  match banList with
  | [] => false
  | x :: rest => if x = a then true else addressInBanList rest a

/-- Model of `addressInBlockedList`: scans the unexpired entries of the
`blockedIp` cache for the address. -/
def addressInBlockedList (s : EngineState) (a : Nat) : Bool :=
  entryLive (s.blockedIp a) s.now

/-- Model of `handleAuthentication`.  On a wrong password it sends
`LoginFailed`, creates the per-ip wrong-password counter with value 0 and a
30-minute TTL if absent (or expired), increments it, and blocks the ip once
the count reaches `loginTries`.  The source then falls through — there is
no `return` closing the wrong-password branch — so every call also stores a
session for the peer and sends `LoginSuccessful`. -/
def handleAuthentication (s : EngineState) (addr : Addr) (password : List Nat) :
    EngineState × List Output :=
  let clientIP := addressWithoutPort addr
  let step :=
    if password ≠ s.password then
      let base :=
        match s.wrongPasswordCounter clientIP with
        | some cd => if s.now ≤ cd.2 then cd else (0, s.now + blockIpInterval)
        | none => (0, s.now + blockIpInterval)
      let times := base.1 + 1
      let s1 : EngineState :=
        { s with wrongPasswordCounter :=
            fun ip => if ip = clientIP then some (times, base.2)
                      else s.wrongPasswordCounter ip }
      let s2 : EngineState :=
        if loginTries ≤ times then
          { s1 with blockedIp :=
              fun ip => if ip = clientIP then some (s.now + blockIpInterval)
                        else s1.blockedIp ip }
        else s1
      (s2, [Output.send addr (MakeLoginResponsePacket LoginFailed)])
    else (s, ([] : List Output))
  let s3 : EngineState :=
    { step.1 with clients :=
        fun a => if a = addr then some (step.1.now + keepAliveCheck)
                 else step.1.clients a }
  (s3, step.2 ++ [Output.send addr (MakeLoginResponsePacket LoginSuccessful)])

/-- Model of `handleKeepAlive`: answer with an empty command response. -/
def handleKeepAlive (s : EngineState) (addr : Addr) (seq : Nat) :
    EngineState × List Output :=
  (s, [Output.send addr (MakeCommandResponsePacket seq [])])

/-- Model of `handlePacket`.  Parse failures and checksum mismatches drop
the datagram; an unauthenticated peer is served only for login packets;
an authenticated peer first has its session refreshed (50-second TTL) and
is then dispatched by packet type. -/
def handlePacket (s : EngineState) (addr : Addr) (data : List Nat) :
    EngineState × List Output :=
  let clientConnected := entryLive (s.clients addr) s.now
  match ParseHeader data with
  | .error _ => (s, [])
  | .ok (packetHeader, afterHeader) =>
    if VerifyChecksum (data.drop 6) packetHeader.checksum = false then (s, [])
    else
      match ParsePacketType afterHeader with
      | .error _ => (s, [])
      | .ok (packetType, afterType) =>
        if clientConnected = false ∧ packetType ≠ LoginPacketType then (s, [])
        else if clientConnected = false ∧ packetType = LoginPacketType then
          match ParseCommand afterType with
          | .error _ => (s, [])
          | .ok (password, _) => handleAuthentication s addr password
        else
          let s1 : EngineState :=
            { s with clients :=
                fun a => if a = addr then some (s.now + keepAliveCheck)
                         else s.clients a }
          if packetType = CommandPacketType then
            match ParseSequenceNumber afterType with
            | .error _ => (s1, [])
            | .ok (seq, afterSeq) =>
              if afterSeq.isEmpty then handleKeepAlive s1 addr seq
              else
                match ParseCommand afterSeq with
                | .error _ => (s1, [])
                | .ok (command, _) =>
                  if s1.hasCommandHandler then
                    (s1, [Output.callback seq command addr])
                  else (s1, [])
          else if packetType = ServerMessagePacketType then
            match ParseSequenceNumber afterType with
            | .error _ => (s1, [])
            | .ok (seq, _) =>
              ({ s1 with serverMessageAcknowledges :=
                  fun k => if k = (addr, seq) then some (s1.now + ackTTL)
                           else s1.serverMessageAcknowledges k }, [])
          else (s1, [])

/-- Per-datagram body of the `ListenAndServe` receive loop: datagrams from
a banned or blocked source ip are dropped before any dispatch. -/
def handleDatagram (s : EngineState) (addr : Addr) (data : List Nat) :
    EngineState × List Output :=
  let clientIP := addressWithoutPort addr
  if addressInBanList s.ipBanList clientIP || addressInBlockedList s clientIP then
    (s, [])
  else handlePacket s addr data

/-! ### Sequence allocator (`NextSequenceNumber`) -/

/-- Modulus of the 32-bit atomic register backing `seqNumber`. -/
def uint32Mod : Nat := 4294967296

/-- Model of `NextSequenceNumber` as a function of the register: it returns
the loaded value truncated to 8 bits, and the new register content after
the atomic increment and the conditional reset to 0 when the
post-increment value exceeds 255. -/
def NextSequenceNumber (seqNumber : Nat) : Nat × Nat :=
  let number := seqNumber
  let newNumber := (seqNumber + 1) % uint32Mod
  (number % 256, if 255 < newNumber then 0 else newNumber)

/-- Register content after `n` calls to `NextSequenceNumber`, starting from
the initial store of 0. -/
def seqRegisterAfter : Nat → Nat
  | 0 => 0
  | n + 1 => (NextSequenceNumber (seqRegisterAfter n)).2

/-- Value returned by the `n`-th call (0-based) to `NextSequenceNumber`. -/
def seqValueAt (n : Nat) : Nat := (NextSequenceNumber (seqRegisterAfter n)).1


/-! ### Derived forms used by the theorems -/

/-- Packet type of a datagram as the dispatcher sees it: the byte after a
successfully parsed header, when there is one. -/
def datagramType (data : List Nat) : Option Nat :=
  match ParseHeader data with
  | .error _ => none
  | .ok (_, afterHeader) =>
    match ParsePacketType afterHeader with
    | .error _ => none
    | .ok (t, _) => some t

/-- Full decode of a command datagram, the composition of the sequential
readers exactly as the dispatcher applies them on the command path: header,
checksum over bytes 6.., packet type 0x01, sequence number, then either the
keep-alive case (nothing left) or the command string.  Returns the sequence
number and the command bytes (empty for a keep-alive). -/
def decodeCommandPacket (data : List Nat) : Option (Nat × List Nat) :=
  match ParseHeader data with
  | .error _ => none
  | .ok (packetHeader, afterHeader) =>
    if VerifyChecksum (data.drop 6) packetHeader.checksum = false then none
    else
      match ParsePacketType afterHeader with
      | .error _ => none
      | .ok (t, afterType) =>
        if t = CommandPacketType then
          match ParseSequenceNumber afterType with
          | .error _ => none
          | .ok (seq, afterSeq) =>
            if afterSeq.isEmpty then some (seq, [])
            else
              match ParseCommand afterSeq with
              | .error _ => none
              | .ok (command, _) => some (seq, command)
        else none

/-- Repeated invocation of the login handler, one entry per login datagram:
each list element carries the source address and the password it offered. -/
def authSeq (s : EngineState) : List (Addr × List Nat) → EngineState
  | [] => s
  | ap :: rest => authSeq (handleAuthentication s ap.1 ap.2).1 rest

/-! ### Concrete inputs used by witnesses and counterexamples -/

/-- A sample peer address, ip 1 port 5000. -/
def addr0 : Addr := ⟨1, 5000⟩

/-- A freshly constructed engine (all tables empty, time 0) with the given
password, as produced by `NewRCON`. -/
def initState (pw : List Nat) : EngineState :=
  { password := pw
    ipBanList := []
    hasCommandHandler := false
    clients := fun _ => none
    blockedIp := fun _ => none
    wrongPasswordCounter := fun _ => none
    serverMessageAcknowledges := fun _ => none
    seqNumber := 0
    now := 0 }

/-- A login datagram carrying the password "wrong" (bytes), correctly
framed and checksummed. -/
def wrongPasswordLoginDatagram : List Nat :=
  (NewPacketHeader (NewChecksum [255, 0, 119, 114, 111, 110, 103])).encode
    ++ [0, 119, 114, 111, 110, 103]

/-- A login datagram with a well-formed header and correct checksum whose
password region is empty: nothing follows the packet-type byte. -/
def emptyPasswordLoginDatagram : List Nat :=
  (NewPacketHeader (NewChecksum [255, 0])).encode ++ [0]

/-- Seven bytes: valid magic, a zero checksum field, and trailer byte 0x00
instead of 0xff. -/
def badTrailerInput : List Nat := [66, 69, 0, 0, 0, 0, 0]

/-- A correctly framed datagram of the unknown packet type 0x09. -/
def unknownTypeDatagram : List Nat :=
  (NewPacketHeader (NewChecksum [255, 9])).encode ++ [9]

/-- A fresh engine whose static ban list contains ip 1 (the ip of `addr0`). -/
def bannedState : EngineState := { initState [7] with ipBanList := [1] }

/-- A fresh engine in which `addr0` holds a session entry with deadline 10. -/
def connectedState : EngineState :=
  { initState [7] with clients := fun a => if a = addr0 then some 10 else none }

/-! ### Helper lemmas -/

lemma uint32Mod_eq : uint32Mod = 2 ^ 32 := by norm_num [uint32Mod]

lemma crc32Round_lt {c : Nat} (h : c < uint32Mod) : crc32Round c < uint32Mod := by
  rw [uint32Mod_eq] at *
  unfold crc32Round
  have hs : c >>> 1 < 2 ^ 32 :=
    lt_of_le_of_lt (by rw [Nat.shiftRight_eq_div_pow]; exact Nat.div_le_self _ _) h
  split
  · exact Nat.xor_lt_two_pow hs (by norm_num [crc32Poly])
  · exact hs

lemma crc32Rounds_lt : ∀ (n : Nat) {c : Nat}, c < uint32Mod → crc32Rounds n c < uint32Mod
  | 0, _, h => h
  | n + 1, _, h => crc32Rounds_lt n (crc32Round_lt h)

lemma crc32UpdateByte_lt {c b : Nat} (hc : c < uint32Mod) (hb : b < 256) :
    crc32UpdateByte c b < uint32Mod := by
  unfold crc32UpdateByte
  refine crc32Rounds_lt 8 ?_
  rw [uint32Mod_eq] at *
  exact Nat.xor_lt_two_pow hc (lt_of_lt_of_le hb (by norm_num))

lemma foldl_crc32UpdateByte_lt :
    ∀ (data : List Nat) {c : Nat}, c < uint32Mod → (∀ b ∈ data, b < 256) →
      data.foldl crc32UpdateByte c < uint32Mod
  | [], _, hc, _ => hc
  | b :: rest, _, hc, hb =>
    foldl_crc32UpdateByte_lt rest
      (crc32UpdateByte_lt hc (hb b (List.mem_cons_self b rest)))
      (fun x hx => hb x (List.mem_cons_of_mem b hx))

lemma NewChecksum_lt {data : List Nat} (h : ∀ b ∈ data, b < 256) :
    NewChecksum data < uint32Mod := by
  unfold NewChecksum
  rw [uint32Mod_eq]
  exact Nat.xor_lt_two_pow
    (by rw [← uint32Mod_eq]; exact foldl_crc32UpdateByte_lt data (by norm_num [uint32Mod]) h)
    (by norm_num)

lemma u32leDecode_u32le {x : Nat} (h : x < uint32Mod) :
    u32leDecode (x % 256) ((x >>> 8) % 256) ((x >>> 16) % 256) ((x >>> 24) % 256) = x := by
  unfold u32leDecode uint32Mod at *
  simp only [Nat.shiftRight_eq_div_pow]
  norm_num
  omega

lemma ParseHeader_encode (cs : Nat) (h : cs < uint32Mod) (payload : List Nat) :
    ParseHeader ((NewPacketHeader cs).encode ++ payload) =
      Except.ok (⟨packetHeaderMagic, cs, packetHeaderEnd⟩, payload) := by
  simp only [NewPacketHeader, PacketHeader.encode, u32le, packetHeaderMagic, packetHeaderEnd,
    List.cons_append, List.nil_append, ParseHeader]
  rw [if_pos trivial, u32leDecode_u32le h]

lemma encode_drop6 (cs : Nat) (payload : List Nat) :
    ((NewPacketHeader cs).encode ++ payload).drop 6 = packetHeaderEnd :: payload := by
  simp [NewPacketHeader, PacketHeader.encode, u32le, packetHeaderEnd, packetHeaderMagic]

lemma decodeCommandPacket_make (seq : Nat) (c : List Nat) (hs : seq < 256)
    (hc : ∀ b ∈ c, b < 256) :
    decodeCommandPacket (MakeCommandResponsePacket seq c) =
      some (seq, c.take commandReadLimit) := by
  have hbytes : ∀ b ∈ packetHeaderEnd :: CommandPacketType :: seq :: c, b < 256 := by
    intro b hb
    simp only [List.mem_cons] at hb
    rcases hb with rfl | rfl | rfl | hb
    · norm_num [packetHeaderEnd]
    · norm_num [CommandPacketType]
    · exact hs
    · exact hc b hb
  have hcs := NewChecksum_lt hbytes
  show decodeCommandPacket
      ((NewPacketHeader (NewChecksum (packetHeaderEnd :: CommandPacketType :: seq :: c))).encode
        ++ (CommandPacketType :: seq :: c)) = _
  rw [decodeCommandPacket, ParseHeader_encode _ hcs, encode_drop6]
  simp only [VerifyChecksum, beq_self_eq_true, ParsePacketType, ParseSequenceNumber]
  cases c with
  | nil => simp
  | cons x xs => simp [ParseCommand]

/-! ### Claim theorems -/

/-- C9: the checksum primitive is the IEEE/reflected-polynomial CRC32:
`crc32("test") = 3632233996`, `crc32([0xFF, 0x00, "testeeee"]) = 353074917`,
and `VerifyChecksum(D, x)` is true exactly when `x = NewChecksum(D)`. -/
theorem checksum_is_ieee_crc32 :
    NewChecksum [116, 101, 115, 116] = 3632233996 ∧
    NewChecksum [255, 0, 116, 101, 115, 116, 101, 101, 101, 101] = 353074917 ∧
    ∀ (d : List Nat) (x : Nat), (VerifyChecksum d x = true ↔ x = NewChecksum d) := by
  refine ⟨by decide, by decide, fun d x => ?_⟩
  rw [VerifyChecksum, beq_iff_eq]
  exact eq_comm

/-- C2 (code evaluated at the failing input): an input with valid magic, a
complete checksum field and a trailer byte 0x00 instead of 0xff is returned
by `ParseHeader` as a successfully parsed header rather than failing with
any error — the source wraps a nil error on the trailer-mismatch path. -/
theorem badTrailer_parses_successfully :
    ParseHeader badTrailerInput =
      Except.ok (⟨packetHeaderMagic, 0, 0⟩, ([] : List Nat)) ∧
    ∀ e : ParseError, ParseHeader badTrailerInput ≠ Except.error e := by
  refine ⟨rfl, fun e h => ?_⟩
  rw [show ParseHeader badTrailerInput =
      Except.ok (⟨packetHeaderMagic, 0, 0⟩, ([] : List Nat)) from rfl] at h
  exact Except.noConfusion h

lemma seqRegisterAfter_eq (n : Nat) : seqRegisterAfter n = n % 256 := by
  induction n with
  | zero => rfl
  | succ n ih =>
    simp only [seqRegisterAfter, NextSequenceNumber, ih, uint32Mod]
    split
    · omega
    · omega

/-- C3 (counterexample): the call returning 255 is immediately followed by
a call returning 0 — the claimed tail `…, 255, 1, 2, …` in which 0 never
reappears is not what the allocator produces. -/
theorem sequence_wrap_reproduces_zero : seqValueAt 255 = 255 ∧ seqValueAt 256 = 0 := by
  constructor
  · simp [seqValueAt, NextSequenceNumber, seqRegisterAfter_eq]
  · simp [seqValueAt, NextSequenceNumber, seqRegisterAfter_eq]

/-- C3 (amended): starting from 0, the allocator returns the pre-increment
value as an 8-bit truncation and resets the register to 0 whenever the
post-increment value exceeds 255; consequently the sequence of returned
values is the purely cyclic `0, 1, …, 255, 0, 1, …`: the n-th call
(0-based) returns `n mod 256`, and in particular 0 is produced again right
after every wrap. -/
theorem sequence_allocator_cyclic : ∀ n : Nat, seqValueAt n = n % 256 := by
  intro n
  simp [seqValueAt, NextSequenceNumber, seqRegisterAfter_eq, Nat.mod_mod_of_dvd]

/-- C5 (counterexample): for a 4099-byte command string the decode of
`build_command_response` does not give back the command: the single
4098-byte read in `ParseCommand` truncates it. -/
theorem command_roundtrip_fails_beyond_4098 :
    decodeCommandPacket (MakeCommandResponsePacket 0 (List.replicate 4099 97)) ≠
      some (0, List.replicate 4099 97) := by
  rw [decodeCommandPacket_make 0 _ (by norm_num)
    (fun b hb => by rw [List.eq_of_mem_replicate hb]; norm_num)]
  intro h
  simp only [commandReadLimit, List.take_replicate, Option.some.injEq, Prod.mk.injEq,
    true_and] at h
  have hlen := congrArg List.length h
  simp only [List.length_replicate] at hlen
  omega

/-- C5 (amended): for every sequence number `s < 256` and every byte string
`c` of at most 4098 bytes, the datagram built by `build_command_response`
decodes back along the engine's command path — header parse, checksum
verification over bytes 6.., packet type 0x01, sequence number — to
exactly `(s, c)`; for empty `c` the decode takes the keep-alive branch and
yields `(s, [])`. -/
theorem command_response_roundtrip (seq : Nat) (c : List Nat) (hs : seq < 256)
    (hc : ∀ b ∈ c, b < 256) (hlen : c.length ≤ commandReadLimit) :
    decodeCommandPacket (MakeCommandResponsePacket seq c) = some (seq, c) := by
  rw [decodeCommandPacket_make seq c hs hc, List.take_of_length_le hlen]

/-- Witness for the amended C5 at `seq = 0x42`, `c = "hi"`. -/
theorem command_response_roundtrip_witness :
    (66 : Nat) < 256 ∧ (∀ b ∈ [104, 105], b < 256) ∧
    ([104, 105] : List Nat).length ≤ commandReadLimit ∧
    decodeCommandPacket (MakeCommandResponsePacket 66 [104, 105]) = some (66, [104, 105]) :=
  ⟨by norm_num, by decide, by norm_num [commandReadLimit],
   command_response_roundtrip 66 [104, 105] (by norm_num) (by decide)
     (by norm_num [commandReadLimit])⟩

/-- C1 (code evaluated at the failing input): a correctly framed login
datagram carrying the wrong password ("wrong", against configured password
"sec") from an unauthenticated peer makes the engine send `LoginFailed`
followed by `LoginSuccessful`, and creates a session entry (deadline
`now + 50`) for the peer: the wrong-password branch of
`handleAuthentication` falls through into session creation. -/
theorem wrong_password_creates_session :
    (handlePacket (initState [115, 101, 99]) addr0 wrongPasswordLoginDatagram).1.clients addr0
      = some keepAliveCheck ∧
    (handlePacket (initState [115, 101, 99]) addr0 wrongPasswordLoginDatagram).2 =
      [Output.send addr0 (MakeLoginResponsePacket LoginFailed),
       Output.send addr0 (MakeLoginResponsePacket LoginSuccessful)] := by
  exact ⟨by decide, by decide⟩

/-- C10: a login datagram with a well-formed header and correct checksum
but an empty password region is dropped with a command-parse error: no
response is sent, no session is created and no table is touched. -/
theorem empty_password_login_dropped (s : EngineState) (addr : Addr)
    (h : entryLive (s.clients addr) s.now = false) :
    handlePacket s addr emptyPasswordLoginDatagram = (s, []) := by
  have hcs : NewChecksum [255, 0] < uint32Mod := by decide
  simp [handlePacket, emptyPasswordLoginDatagram,
    ParseHeader_encode (NewChecksum [255, 0]) hcs, encode_drop6, VerifyChecksum,
    ParsePacketType, ParseCommand, h, LoginPacketType, packetHeaderEnd]

/-- Witness for C10 on a fresh engine. -/
theorem empty_password_login_dropped_witness :
    entryLive ((initState [7]).clients addr0) (initState [7]).now = false ∧
    handlePacket (initState [7]) addr0 emptyPasswordLoginDatagram = (initState [7], []) :=
  ⟨rfl, empty_password_login_dropped (initState [7]) addr0 rfl⟩

/-- C6: a datagram from a peer with no (live) session entry whose packet
type is not login — including unknown types, and datagrams with no
parseable type at all — leaves the whole engine state unchanged and writes
nothing to the socket. -/
theorem unauthenticated_non_login_noop (s : EngineState) (addr : Addr) (data : List Nat)
    (hconn : entryLive (s.clients addr) s.now = false)
    (htype : datagramType data ≠ some LoginPacketType) :
    handlePacket s addr data = (s, []) := by
  simp only [handlePacket]
  cases hph : ParseHeader data with
  | error e => simp [hph]
  | ok v =>
    obtain ⟨ph, rest⟩ := v
    simp only [hph]
    by_cases hcs : VerifyChecksum (data.drop 6) ph.checksum = false
    · simp [hcs]
    · rw [if_neg hcs]
      cases hpt : ParsePacketType rest with
      | error e => simp [hpt]
      | ok w =>
        obtain ⟨t, rest2⟩ := w
        simp only [hpt]
        have ht : t ≠ LoginPacketType := by
          intro hEq
          refine htype ?_
          simp only [datagramType, hph, hpt]
          rw [hEq]
        rw [hconn]
        simp [ht]

/-- Witness for C6: a fresh engine, a datagram of the unknown type 0x09. -/
theorem unauthenticated_non_login_noop_witness :
    entryLive ((initState [7]).clients addr0) (initState [7]).now = false ∧
    datagramType unknownTypeDatagram ≠ some LoginPacketType ∧
    handlePacket (initState [7]) addr0 unknownTypeDatagram = (initState [7], []) :=
  ⟨rfl, by decide,
   unauthenticated_non_login_noop (initState [7]) addr0 unknownTypeDatagram rfl (by decide)⟩

/-- C7: a datagram whose source ip is in the static ban list or in the
block table is discarded by the receive loop before any dispatch: no state
change and no response. -/
theorem banned_or_blocked_ignored (s : EngineState) (addr : Addr) (data : List Nat)
    (h : addressInBanList s.ipBanList (addressWithoutPort addr) = true ∨
         addressInBlockedList s (addressWithoutPort addr) = true) :
    handleDatagram s addr data = (s, []) := by
  unfold handleDatagram
  rcases h with h | h <;> simp [h]

/-- Witness for C7: a banned source sending a perfectly valid login datagram. -/
theorem banned_or_blocked_ignored_witness :
    (addressInBanList bannedState.ipBanList (addressWithoutPort addr0) = true ∨
     addressInBlockedList bannedState (addressWithoutPort addr0) = true) ∧
    handleDatagram bannedState addr0 wrongPasswordLoginDatagram = (bannedState, []) :=
  ⟨Or.inl rfl,
   banned_or_blocked_ignored bannedState addr0 wrongPasswordLoginDatagram (Or.inl rfl)⟩

/-- C8: an authenticated peer sending a valid command packet with sequence
number `seq` and empty body is answered with
`build_command_response(seq, empty)` and its session entry is reset to the
50-second TTL; nothing else changes. -/
theorem keepalive_reply_and_session_refresh (s : EngineState) (addr : Addr) (seq : Nat)
    (hconn : entryLive (s.clients addr) s.now = true) (hs : seq < 256) :
    handlePacket s addr (MakeCommandResponsePacket seq []) =
      ({ s with clients :=
          fun a => if a = addr then some (s.now + keepAliveCheck) else s.clients a },
       [Output.send addr (MakeCommandResponsePacket seq [])]) := by
  have hcs : NewChecksum [255, 1, seq] < uint32Mod := by
    refine NewChecksum_lt ?_
    intro b hb
    simp only [List.mem_cons, List.not_mem_nil, or_false] at hb
    rcases hb with rfl | rfl | rfl
    · norm_num
    · norm_num
    · exact hs
  simp [handlePacket, MakeCommandResponsePacket, handleKeepAlive,
    packetHeaderEnd, CommandPacketType, LoginPacketType, ServerMessagePacketType,
    ParseHeader_encode (NewChecksum [255, 1, seq]) hcs,
    encode_drop6, VerifyChecksum, ParsePacketType, ParseSequenceNumber, hconn]

lemma handleAuthentication_wrong_live (s : EngineState) (addr : Addr) (pw : List Nat)
    (hpw : pw ≠ s.password) (c : Nat)
    (hc : s.wrongPasswordCounter (addressWithoutPort addr) =
      some (c, s.now + blockIpInterval)) :
    (handleAuthentication s addr pw).1 =
      { s with
        wrongPasswordCounter :=
          fun ip => if ip = addressWithoutPort addr
            then some (c + 1, s.now + blockIpInterval) else s.wrongPasswordCounter ip,
        blockedIp :=
          if loginTries ≤ c + 1 then
            fun ip => if ip = addressWithoutPort addr
              then some (s.now + blockIpInterval) else s.blockedIp ip
          else s.blockedIp,
        clients :=
          fun a => if a = addr then some (s.now + keepAliveCheck) else s.clients a } := by
  simp only [handleAuthentication, hc, if_pos hpw, Nat.le_add_right, if_true]
  split <;> rfl

lemma handleAuthentication_wrong_first (s : EngineState) (addr : Addr) (pw : List Nat)
    (hpw : pw ≠ s.password)
    (hc : s.wrongPasswordCounter (addressWithoutPort addr) = none) :
    (handleAuthentication s addr pw).1 =
      { s with
        wrongPasswordCounter :=
          fun ip => if ip = addressWithoutPort addr
            then some (1, s.now + blockIpInterval) else s.wrongPasswordCounter ip,
        clients :=
          fun a => if a = addr then some (s.now + keepAliveCheck) else s.clients a } := by
  simp only [handleAuthentication, hc, if_pos hpw]
  rw [if_neg (by norm_num [loginTries])]

lemma authSeq_counts_and_blocks (attempts : List (Addr × List Nat)) :
    ∀ (s : EngineState) (ipI c : Nat),
      (∀ p ∈ attempts, addressWithoutPort p.1 = ipI ∧ p.2 ≠ s.password) →
      s.wrongPasswordCounter ipI = some (c, s.now + blockIpInterval) →
      (loginTries ≤ c → s.blockedIp ipI = some (s.now + blockIpInterval)) →
      (authSeq s attempts).now = s.now ∧
      (authSeq s attempts).wrongPasswordCounter ipI =
        some (c + attempts.length, s.now + blockIpInterval) ∧
      (loginTries ≤ c + attempts.length →
        (authSeq s attempts).blockedIp ipI = some (s.now + blockIpInterval)) := by
  induction attempts with
  | nil =>
    intro s ipI c hmem hc hb
    simpa using ⟨rfl, hc, hb⟩
  | cons ap rest ih =>
    intro s ipI c hmem hc hb
    obtain ⟨hip, hpw⟩ := hmem ap (List.mem_cons_self _ _)
    have hstep := handleAuthentication_wrong_live s ap.1 ap.2 hpw c (by rw [hip]; exact hc)
    rw [hip] at hstep
    have hrec := ih (handleAuthentication s ap.1 ap.2).1 ipI (c + 1)
      (fun p hp => by
        obtain ⟨h1, h2⟩ := hmem p (List.mem_cons_of_mem _ hp)
        refine ⟨h1, ?_⟩
        rw [hstep]
        exact h2)
      (by rw [hstep]; simp)
      (by
        intro hle
        rw [hstep]
        simp only
        rw [if_pos hle]
        simp)
    rw [hstep] at hrec
    simp only at hrec
    obtain ⟨hnow, hcount, hblock⟩ := hrec
    refine ⟨by simpa [authSeq, hstep] using hnow, ?_, ?_⟩
    · show (authSeq (handleAuthentication s ap.1 ap.2).1 rest).wrongPasswordCounter ipI = _
      rw [hstep]
      simpa [List.length_cons, Nat.add_comm, Nat.add_assoc, Nat.add_left_comm] using hcount
    · intro hle
      show (authSeq (handleAuthentication s ap.1 ap.2).1 rest).blockedIp ipI = _
      rw [hstep]
      refine (hblock ?_).trans ?_ <;> simp_all
      all_goals omega

/-- C4: five (or more) wrong-password login datagrams from one source ip,
handled while the per-ip counter is live, put the ip into the block table:
after the login handler has run on every element of `attempts` the ip is
blocked, with a deadline 30 minutes from the insertion time. -/
theorem five_wrong_passwords_block_ip (s : EngineState) (ipI : Nat)
    (attempts : List (Addr × List Nat))
    (hmem : ∀ p ∈ attempts, addressWithoutPort p.1 = ipI ∧ p.2 ≠ s.password)
    (hnone : s.wrongPasswordCounter ipI = none)
    (hlen : loginTries ≤ attempts.length) :
    addressInBlockedList (authSeq s attempts) ipI = true := by
  cases attempts with
  | nil => exact absurd hlen (by norm_num [loginTries])
  | cons ap rest =>
    obtain ⟨hip, hpw⟩ := hmem ap (List.mem_cons_self _ _)
    have hstep := handleAuthentication_wrong_first s ap.1 ap.2 hpw (by rw [hip]; exact hnone)
    rw [hip] at hstep
    have hrec := authSeq_counts_and_blocks rest (handleAuthentication s ap.1 ap.2).1 ipI 1
      (fun p hp => by
        obtain ⟨h1, h2⟩ := hmem p (List.mem_cons_of_mem _ hp)
        refine ⟨h1, ?_⟩
        rw [hstep]
        exact h2)
      (by rw [hstep]; simp)
      (by intro hle; exact absurd hle (by norm_num [loginTries]))
    rw [hstep] at hrec
    simp only at hrec
    obtain ⟨hnow, _, hblock⟩ := hrec
    have hlen2 : loginTries ≤ 1 + rest.length := by
      simpa [List.length_cons, Nat.add_comm] using hlen
    show addressInBlockedList (authSeq (handleAuthentication s ap.1 ap.2).1 rest) ipI = true
    rw [addressInBlockedList, hstep]
    rw [hblock hlen2, hnow]
    simp [entryLive]

/-- Witness for C4: five wrong-password datagrams from ip 1 on a fresh
engine with password `[9, 9]`. -/
theorem five_wrong_passwords_block_ip_witness :
    (initState [9, 9]).wrongPasswordCounter 1 = none ∧
    loginTries ≤ (List.replicate 5 (addr0, [1, 2])).length ∧
    addressInBlockedList (authSeq (initState [9, 9]) (List.replicate 5 (addr0, [1, 2]))) 1
      = true :=
  ⟨rfl, by decide,
   five_wrong_passwords_block_ip (initState [9, 9]) 1 (List.replicate 5 (addr0, [1, 2]))
     (by decide) rfl (by decide)⟩

/-- Witness for C8: the connected peer `addr0` sends a keep-alive with
sequence 0x42. -/
theorem keepalive_reply_and_session_refresh_witness :
    entryLive (connectedState.clients addr0) connectedState.now = true ∧
    (66 : Nat) < 256 ∧
    handlePacket connectedState addr0 (MakeCommandResponsePacket 66 []) =
      ({ connectedState with clients :=
          fun a => if a = addr0 then some (connectedState.now + keepAliveCheck)
                   else connectedState.clients a },
       [Output.send addr0 (MakeCommandResponsePacket 66 [])]) :=
  ⟨rfl, by norm_num,
   keepalive_reply_and_session_refresh connectedState addr0 66 rfl (by norm_num)⟩

end Rcon
